import Mathlib

/-!
Shallow embedding of `src/app/visualize.py` (Family Promise of Spokane data
visualization service): the aggregation engine that turns per-member exit
records into date-bucketed breakdown statistics, the two route handlers
`moving_avg` and `exit_pie`, and the day-of-year keyed file cache with its
stale-file sweep `_update_cache`.

Modelling conventions:
- Calendar dates are `Int` day numbers (`date.today()` is the parameter
  `today`; `timedelta(days=n)` is subtraction of `n`).
- Python `//` is floor division; every division in the source has the
  positive divisor 90 (or a positive range step), and for positive divisors
  Lean's `Int` division `/` (Euclidean) coincides with floor division.
- The pandas dataframe of `_exit_df` is a `List ExitRecord` (columns
  `date`, `dest`); `df['dest'].unique()` keeps first occurrences, modelled
  by `uniqueDests`.
- A float proportion `a/n` is a `Rat`; Python raises `ZeroDivisionError`
  when `n = 0`, so the bucket computation lives in `Except PyError`.
- The plotly figure (`px.line`/`px.pie` plus `to_json`, an excluded
  external collaborator) is modelled as the aggregated data it is built
  from, wrapped in the `Fig` inductive; `json.dump`/`json.load` of a good
  file round-trip that payload.
- The cache directory is a `List CacheFile` of (filename as `List Char`,
  file content); `open(path, 'w')` is `writeFile`, the `os.scandir` sweep
  is a filter, and Python's substring test `s in name` is `hasSub`.
- The route handlers record an event trace (`Ev`) noting the cache access
  and the database query, so that "rejected before touching storage or
  cache" is expressible.
-/

namespace Visualize

/-- One exit record: `Member.date_of_exit` and `Member.exit_destination`,
as carried in the dataframe columns `date` and `dest`. -/
structure ExitRecord where
  date : Int
  dest : String
deriving DecidableEq

/-- The fixed, ordered category set, from the `category_orders` literal of
`plot_moving_avg` (the same five categories appear in the
`color_discrete_map` of `plot_exit_pie`). -/
def CATEGORIES : List String :=
  ["Permanent Exit", "Temporary Exit", "Transitional Housing",
   "Emergency Shelter", "Unknown/Other"]

/-- Errors a handler can raise: `HTTPException(status, detail)` from
`_check_m`, `FileNotFoundError` / `json.JSONDecodeError` /
`PermissionError` from the cache read, `ZeroDivisionError` from the
breakdown computation, and `KeyError` from `df['dest']` when the fetch
returned no rows (the appended-to `pd.DataFrame()` then has no columns). -/
inductive PyError where
  | httpException (status : Nat) (detail : String)
  | fileNotFound
  | jsonDecodeError
  | permissionError
  | zeroDivision
  | keyError
deriving DecidableEq

/-- `first < date <= last` filter, shared by the ORM query of `_exit_df`
(line 136) and the per-bucket subset `df[(df['date'] > start) & (df['date'] <= end)]`
(line 86). -/
def dateFilter (l : List ExitRecord) (lo hi : Int) : List ExitRecord :=
  l.filter (fun r => decide (lo < r.date) && decide (r.date ≤ hi))

/-- `_exit_df(session, first, last)`: the records of the store whose
`date_of_exit` lies in `(first, last]`, in store order (the dataframe keeps
one row per returned record, with columns `date` and `dest`). -/
def _exit_df (db : List ExitRecord) (first last_ : Int) : List ExitRecord :=
  dateFilter db first last_

/-- `df['dest'].unique()`: distinct destination values in order of first
appearance. -/
def dedupFirst (seen : List String) : List String → List String
  | [] => []
  | x :: xs => if x ∈ seen then dedupFirst seen xs else x :: dedupFirst (x :: seen) xs

def uniqueDests (df : List ExitRecord) : List String :=
  dedupFirst [] (df.map (fun r => r.dest))

/-- `STEP = days_back//90 or 1` (line 73).  Python `//` floors; `days_back / 90`
is Euclidean division by the positive constant 90, which is the floor. -/
def STEP (days_back : Int) : Int :=
  if days_back / 90 = 0 then 1 else days_back / 90

/-- Length of `range(start, stop, step)`, as CPython computes it
(`ceil((stop-start)/step)` clamped at 0; all divisors positive).
`range` rejects `step = 0`, a case the source never produces since
`STEP` is never 0; it is given length 0 here. -/
def pyRangeLen (start stop step : Int) : Nat :=
  if 0 < step then (((stop - start) + step - 1) / step).toNat
  else if step < 0 then (((start - stop) + (-step) - 1) / (-step)).toNat
  else 0

/-- `range(start, stop, step)` as a list. -/
def pyRange (start stop step : Int) : List Int :=
  (List.range (pyRangeLen start stop step)).map (fun (k : Nat) => start + step * (k : Int))

/-- The offsets `i` iterated by the loop `for i in range(0, days_back, STEP)`
(line 83). -/
def movingOffsets (days_back : Int) : List Int :=
  pyRange 0 days_back (STEP days_back)

/-- Python `a / n` on the two counts of line 91: raises `ZeroDivisionError`
when `n = 0`, otherwise the exact quotient. -/
def pyDiv (a n : Nat) : Except PyError Rat :=
  if n = 0 then .error .zeroDivision else .ok ((a : Rat) / (n : Rat))

/-- Sequential accumulation with fail-fast errors: models both the dict
comprehension of line 91 (one entry per `dest`, raising at the first
division by zero) and the row-appending loop of lines 83-92. -/
def buildRows {α β : Type} (f : α → Except PyError β) : List α → Except PyError (List β)
  | [] => .ok []
  | x :: xs =>
    match f x with
    | .error e => .error e
    | .ok y =>
      match buildRows f xs with
      | .error e => .error e
      | .ok ys => .ok (y :: ys)

/-- Lines 86-91: the subset of `df` with `start < date <= end`, its size
`n_exits`, and the breakdown
`{dest: sub[sub['dest']==dest].shape[0]/n_exits for dest in dests}`. -/
def bucketBreakdown (df : List ExitRecord) (dests : List String) (start stop : Int) :
    Except PyError (List (String × Rat)) :=
  let sub := dateFilter df start stop
  let n_exits := sub.length
  buildRows
    (fun dst => (pyDiv (sub.filter (fun r => r.dest == dst)).length n_exits).map
      (fun q => (dst, q)))
    dests

/-- The aggregation loop of `plot_moving_avg` (lines 73-93): fetch the
records of `(last - (m + days_back), last]`, take the distinct destinations
of that fetch, and for each offset `i` build the bucket ending at
`last - i` over the window `(end - m, end]`.  When the fetch returns no
rows, `_exit_df` hands back the bare `pd.DataFrame()` it started from,
which has no columns, and `df['dest']` at line 79 raises `KeyError`
before the loop.  Otherwise every appended row carries all of `dests` as
keys, so the trailing `fillna(0)` adds nothing. -/
def movingBuckets (db : List ExitRecord) (m days_back last_ : Int) :
    Except PyError (List (Int × List (String × Rat))) :=
  let first := last_ - (m + days_back)
  let df := _exit_df db first last_
  match df with
  | [] => .error .keyError
  | _ :: _ =>
    let dests := uniqueDests df
    buildRows
      (fun i =>
        let e := last_ - i
        (bucketBreakdown df dests (e - m) e).map (fun b => (e, b)))
      (movingOffsets days_back)

/-- A cached/returned figure payload: the aggregated data handed to the
external chart renderer (`px.line` with its fixed `category_orders`, or
`px.pie` with its fixed `color_discrete_map`). -/
inductive Fig where
  | line (series : List (Int × List (String × Rat)))
  | pie (rows : List (ExitRecord × Nat))
deriving DecidableEq

/-- `plot_moving_avg(session, m, days_back)` (lines 69-106): anchor
`last = date.today() - timedelta(days=180)`, aggregate, render as the line
figure.  Raises `KeyError` out of the handler when the fetch is empty,
and `ZeroDivisionError` when a bucket is empty while `dests` is not. -/
def plot_moving_avg (db : List ExitRecord) (m days_back today : Int) :
    Except PyError Fig :=
  (movingBuckets db m days_back (today - 180)).map Fig.line

/-- `plot_exit_pie(session, m)` (lines 109-130): fetch
`(last - m, last]` with `last = today - 180`, give each row the constant
`count` column 1, render as the pie figure.  Total: no division occurs. -/
def plot_exit_pie (db : List ExitRecord) (m today : Int) : Fig :=
  Fig.pie ((_exit_df db ((today - 180) - m) (today - 180)).map (fun r => (r, 1)))

/-- Cache file content as the route's `json.load` sees it: a well-formed
payload, unparseable bytes (`json.JSONDecodeError`), or a file `open`
cannot read (`PermissionError`). -/
inductive FileContent where
  | good (fig : Fig)
  | corrupt
  | unreadable
deriving DecidableEq

/-- One entry of the cache directory `app/plotcache`. -/
structure CacheFile where
  name : List Char
  content : FileContent
deriving DecidableEq

/-- Python `str` of a nonnegative integer, as a character list. -/
def natStr (n : Nat) : List Char := Nat.toDigits 10 n

/-- Python `str` of an integer (f-string interpolation of `m`, `days_back`). -/
def intStr (i : Int) : List Char :=
  if i < 0 then '-' :: natStr i.natAbs else natStr i.natAbs

/-- The day tag `f'd{DoY}'` the sweep scans for (line 154). -/
def tag (DoY : Nat) : List Char := 'd' :: natStr DoY

/-- Cache key `f'MA{m}-{days_back}-d{DoY}.json'` of the moving-average
route (line 31). -/
def maName (m days_back : Int) (DoY : Nat) : List Char :=
  "MA".data ++ intStr m ++ "-".data ++ intStr days_back ++ "-".data
    ++ tag DoY ++ ".json".data

/-- Cache key `f'PIE{m}-d{DoY}.json'` of the pie route (line 54). -/
def pieName (m : Int) (DoY : Nat) : List Char :=
  "PIE".data ++ intStr m ++ "-".data ++ tag DoY ++ ".json".data

/-- `pat == s[:len(pat)]`: helper for the substring test. -/
def startsWithL : List Char → List Char → Bool
  | [], _ => true
  | _ :: _, [] => false
  | p :: ps, c :: cs => p == c && startsWithL ps cs

/-- Python's substring containment `pat in s` (line 154 uses it on file
names). -/
def hasSub (pat : List Char) : List Char → Bool
  | [] => startsWithL pat []
  | c :: cs => startsWithL pat (c :: cs) || hasSub pat cs

/-- `open(path, 'w')` + `json.dump`: truncate an existing file of that
name, or create a new one at the end of the directory listing. -/
def writeFile (dir : List CacheFile) (name : List Char) (c : FileContent) :
    List CacheFile :=
  if dir.any (fun f => f.name == name) then
    dir.map (fun f => if f.name == name then ⟨name, c⟩ else f)
  else dir ++ [⟨name, c⟩]

/-- `_update_cache(fig, cache_path, DoY)` (lines 147-155): write the
payload, then keep exactly the files whose name contains the substring
`f'd{DoY}'` (deleting the rest). -/
def _update_cache (fig : Fig) (cache_name : List Char) (DoY : Nat)
    (dir : List CacheFile) : List CacheFile :=
  let dir1 := writeFile dir cache_name (.good fig)
  dir1.filter (fun f => hasSub (tag DoY) f.name)

/-- `json.load(open(cache_path))` (lines 34-35 and 57-58): missing file
raises `FileNotFoundError`; a present file yields its payload or raises a
decode/permission error. -/
def jsonLoadFile (dir : List CacheFile) (name : List Char) : Except PyError Fig :=
  match dir.find? (fun f => f.name == name) with
  | none => .error .fileNotFound
  | some f =>
    match f.content with
    | .good fig => .ok fig
    | .corrupt => .error .jsonDecodeError
    | .unreadable => .error .permissionError

/-- `_check_m(m)` (lines 158-162). -/
def _check_m (m : Int) : Except PyError Unit :=
  if m = 90 ∨ m = 365 then .ok ()
  else .error (.httpException 404 "Not found. Try m=90 or m=365")

deriving instance DecidableEq for Except

/-- Observable effects of a handler run, in order: the cache-file read
attempt, and the database query issued inside the plot function. -/
inductive Ev where
  | cacheAccess
  | dbQuery
deriving DecidableEq

/-- Outcome of one handler run: the HTTP response (payload or raised
error), the cache directory once the scheduled background task (if any)
has completed, and the effect trace. -/
structure RouteResult where
  response : Except PyError Fig
  dirAfter : List CacheFile
  events : List Ev
deriving DecidableEq

/-- Route `GET /exit-moving-avg/{m}/{days_back}` (lines 20-41): validate
`m`; read the cache key for today's day-of-year; on `FileNotFoundError`
compute the figure and schedule `_update_cache`; any other raised error
propagates, and then no background task runs. -/
def moving_avg (m days_back : Int) (DoY : Nat) (today : Int)
    (db : List ExitRecord) (dir : List CacheFile) : RouteResult :=
  match _check_m m with
  | .error e => ⟨.error e, dir, []⟩
  | .ok _ =>
    let cache_name := maName m days_back DoY
    match jsonLoadFile dir cache_name with
    | .ok fig => ⟨.ok fig, dir, [.cacheAccess]⟩
    | .error .fileNotFound =>
      match plot_moving_avg db m days_back today with
      | .ok fig => ⟨.ok fig, _update_cache fig cache_name DoY dir, [.cacheAccess, .dbQuery]⟩
      | .error e => ⟨.error e, dir, [.cacheAccess, .dbQuery]⟩
    | .error e => ⟨.error e, dir, [.cacheAccess]⟩

/-- Route `GET /exit-pie/{m}` (lines 44-64), same shape; the pie plot
itself cannot raise. -/
def exit_pie (m : Int) (DoY : Nat) (today : Int)
    (db : List ExitRecord) (dir : List CacheFile) : RouteResult :=
  match _check_m m with
  | .error e => ⟨.error e, dir, []⟩
  | .ok _ =>
    let cache_name := pieName m DoY
    match jsonLoadFile dir cache_name with
    | .ok fig => ⟨.ok fig, dir, [.cacheAccess]⟩
    | .error .fileNotFound =>
      let fig := plot_exit_pie db m today
      ⟨.ok fig, _update_cache fig cache_name DoY dir, [.cacheAccess, .dbQuery]⟩
    | .error e => ⟨.error e, dir, [.cacheAccess]⟩


/-! ### Helper lemmas about the embedded operations -/

lemma buildRows_pair_ok {α β γ : Type} (t : α → γ) (g : α → Except PyError β) :
    ∀ (l : List α) (ys : List (γ × β)),
      buildRows (fun x => (g x).map (fun y => (t x, y))) l = .ok ys →
      ys.map Prod.fst = l.map t ∧ ∀ p ∈ ys, ∃ x ∈ l, p.1 = t x ∧ g x = .ok p.2 := by
  intro l
  induction l with
  | nil =>
    intro ys h
    simp only [buildRows] at h
    cases h
    exact ⟨rfl, by intro p hp; cases hp⟩
  | cons x xs ih =>
    intro ys h
    simp only [buildRows] at h
    split at h
    · cases h
    · rename_i y hy
      split at h
      · cases h
      · rename_i ys0 hys0
        cases h
        obtain ⟨hmap, hmem⟩ := ih ys0 hys0
        have hyx : y.1 = t x ∧ g x = .ok y.2 := by
          cases hgx : g x with
          | error e => rw [hgx] at hy; simp [Except.map] at hy
          | ok y2 =>
            rw [hgx] at hy
            simp only [Except.map] at hy
            cases hy
            exact ⟨rfl, rfl⟩
        constructor
        · simp [List.map_cons, hmap, hyx.1]
        · intro p hp
          rcases List.mem_cons.mp hp with rfl | hp2
          · exact ⟨x, List.mem_cons_self x xs, hyx.1, hyx.2⟩
          · obtain ⟨x2, hx2, hfst, hgx2⟩ := hmem p hp2
            exact ⟨x2, List.mem_cons_of_mem x hx2, hfst, hgx2⟩

lemma pyDiv_ok {a n : Nat} {q : Rat} (h : pyDiv a n = .ok q) :
    n ≠ 0 ∧ q = (a : Rat) / (n : Rat) := by
  unfold pyDiv at h
  split at h
  · cases h
  · cases h
    exact ⟨by assumption, rfl⟩

lemma mem_dedupFirst (c : String) :
    ∀ (l seen : List String), c ∈ dedupFirst seen l ↔ (c ∈ l ∧ c ∉ seen) := by
  intro l
  induction l with
  | nil => intro seen; simp [dedupFirst]
  | cons x xs ih =>
    intro seen
    simp only [dedupFirst]
    by_cases hx : x ∈ seen
    · rw [if_pos hx, ih seen, List.mem_cons]
      constructor
      · rintro ⟨h1, h2⟩; exact ⟨Or.inr h1, h2⟩
      · rintro ⟨h1 | h1, h2⟩
        · subst h1; exact absurd hx h2
        · exact ⟨h1, h2⟩
    · rw [if_neg hx, List.mem_cons, ih (x :: seen), List.mem_cons, List.mem_cons]
      constructor
      · rintro (rfl | ⟨h1, h2⟩)
        · exact ⟨Or.inl rfl, hx⟩
        · push_neg at h2
          exact ⟨Or.inr h1, h2.2⟩
      · rintro ⟨h1 | h1, h2⟩
        · exact Or.inl h1
        · by_cases hcx : c = x
          · exact Or.inl hcx
          · refine Or.inr ⟨h1, ?_⟩
            push_neg
            exact ⟨hcx, h2⟩

lemma mem_uniqueDests (c : String) (df : List ExitRecord) :
    c ∈ uniqueDests df ↔ c ∈ df.map (fun r => r.dest) := by
  unfold uniqueDests
  rw [mem_dedupFirst]
  simp

lemma bucketBreakdown_ok {df : List ExitRecord} {dests : List String} {start stop : Int}
    {b : List (String × Rat)} (h : bucketBreakdown df dests start stop = .ok b) :
    b.map Prod.fst = dests ∧
      ∀ q ∈ b,
        ((dateFilter df start stop).filter (fun r => r.dest == q.1)).length = 0 → q.2 = 0 := by
  simp only [bucketBreakdown] at h
  obtain ⟨hmap, hmem⟩ := buildRows_pair_ok (fun d => d) _ dests b h
  refine ⟨by simpa using hmap, ?_⟩
  intro q hq hzero
  obtain ⟨dst, _, hfst, hdiv⟩ := hmem q hq
  obtain ⟨hn, hq2⟩ := pyDiv_ok hdiv
  rw [hfst] at hzero
  rw [hq2, hzero]
  simp

lemma movingBuckets_mem {db : List ExitRecord} {m days_back last_ : Int}
    {bs : List (Int × List (String × Rat))}
    (h : movingBuckets db m days_back last_ = .ok bs) :
    ∀ p ∈ bs, ∃ i ∈ movingOffsets days_back,
      p.1 = last_ - i ∧
      bucketBreakdown (_exit_df db (last_ - (m + days_back)) last_)
        (uniqueDests (_exit_df db (last_ - (m + days_back)) last_))
        (p.1 - m) p.1 = .ok p.2 := by
  simp only [movingBuckets] at h
  split at h
  · cases h
  obtain ⟨_, hmem⟩ := buildRows_pair_ok (fun i => last_ - i) _ (movingOffsets days_back) bs h
  intro p hp
  obtain ⟨i, hi, hfst, hbk⟩ := hmem p hp
  refine ⟨i, hi, hfst, ?_⟩
  rw [hfst]
  exact hbk


lemma STEP_pos {d : Int} (hd : 0 ≤ d) : 0 < STEP d := by
  simp only [STEP]
  split <;> omega

lemma lt_pyRangeLen_iff {d s : Int} (hs : 0 < s) (k : Nat) :
    k < pyRangeLen 0 d s ↔ s * (k : Int) < d := by
  unfold pyRangeLen
  rw [if_pos hs, Int.lt_toNat]
  have hexp : ((k : Int) + 1) * s = s * (k : Int) + s := by ring
  constructor
  · intro h
    have h1 : (k : Int) + 1 ≤ (d - 0 + s - 1) / s := Int.lt_iff_add_one_le.mp h
    have h2 := (Int.le_ediv_iff_mul_le hs).mp h1
    rw [hexp] at h2
    omega
  · intro h
    have h2 : ((k : Int) + 1) * s ≤ d - 0 + s - 1 := by rw [hexp]; omega
    exact Int.lt_iff_add_one_le.mpr ((Int.le_ediv_iff_mul_le hs).mpr h2)

lemma mem_movingOffsets_nonneg {d : Int} (hd : 0 ≤ d) (i : Int) :
    i ∈ movingOffsets d ↔ ∃ k : Nat, i = STEP d * k ∧ i < d := by
  have hs := STEP_pos hd
  constructor
  · intro hmem
    unfold movingOffsets pyRange at hmem
    obtain ⟨k, hk, hval⟩ := List.mem_map.mp hmem
    have hkr : k < pyRangeLen 0 d (STEP d) := List.mem_range.mp hk
    have hlt := (lt_pyRangeLen_iff hs k).mp hkr
    refine ⟨k, ?_, ?_⟩
    · rw [← hval]; ring
    · rw [← hval]; simpa using hlt
  · rintro ⟨k, rfl, hlt⟩
    unfold movingOffsets pyRange
    refine List.mem_map.mpr
      ⟨k, List.mem_range.mpr ((lt_pyRangeLen_iff hs k).mpr hlt), ?_⟩
    ring

lemma neg_step_offset_mem {d : Int} (hd : d ≤ -90) :
    STEP d < 0 ∧ STEP d ∈ movingOffsets d := by
  have hstep : STEP d = d / 90 := by
    simp only [STEP]
    rw [if_neg]
    omega
  have hneg : STEP d < 0 := by rw [hstep]; omega
  refine ⟨hneg, ?_⟩
  unfold movingOffsets pyRange
  refine List.mem_map.mpr ⟨1, List.mem_range.mpr ?_, by push_cast; ring⟩
  have hpos : (0 : Int) < -STEP d := by omega
  have hle : -STEP d ≤ -d - 1 := by rw [hstep]; omega
  have h3 : (2 : Int) ≤ (0 - d + -STEP d - 1) / -STEP d :=
    (Int.le_ediv_iff_mul_le hpos).mpr (by nlinarith)
  unfold pyRangeLen
  rw [if_neg (by omega), if_pos (by omega), Int.lt_toNat]
  push_cast
  linarith


lemma startsWithL_append (pat r : List Char) : startsWithL pat (pat ++ r) = true := by
  induction pat with
  | nil => rfl
  | cons p ps ih => simp [startsWithL, ih]

lemma hasSub_of_startsWith {pat s : List Char} (h : startsWithL pat s = true) :
    hasSub pat s = true := by
  cases s with
  | nil => simpa [hasSub] using h
  | cons c cs => simp [hasSub, h]

lemma hasSub_append_left (l : List Char) {pat s : List Char} (h : hasSub pat s = true) :
    hasSub pat (l ++ s) = true := by
  induction l with
  | nil => simpa using h
  | cons c cs ih => simp [hasSub, ih]

lemma hasSub_maName (m days_back : Int) (DoY : Nat) :
    hasSub (tag DoY) (maName m days_back DoY) = true := by
  have h1 : maName m days_back DoY =
      ("MA".data ++ intStr m ++ "-".data ++ intStr days_back ++ "-".data)
        ++ (tag DoY ++ ".json".data) := by
    simp [maName, List.append_assoc]
  rw [h1]
  exact hasSub_append_left _ (hasSub_of_startsWith (startsWithL_append _ _))

lemma hasSub_pieName (m : Int) (DoY : Nat) :
    hasSub (tag DoY) (pieName m DoY) = true := by
  have h1 : pieName m DoY =
      ("PIE".data ++ intStr m ++ "-".data) ++ (tag DoY ++ ".json".data) := by
    simp [pieName, List.append_assoc]
  rw [h1]
  exact hasSub_append_left _ (hasSub_of_startsWith (startsWithL_append _ _))

lemma writeFile_content {dir : List CacheFile} {name : List Char} {c : FileContent} :
    ∀ f ∈ writeFile dir name c, f.name = name → f.content = c := by
  intro f hf hname
  unfold writeFile at hf
  split at hf
  · rename_i hany
    obtain ⟨g, hg, hgf⟩ := List.mem_map.mp hf
    by_cases hgn : g.name == name
    · rw [if_pos hgn] at hgf
      rw [← hgf]
    · rw [if_neg hgn] at hgf
      rw [← hgf] at hname
      exact absurd (by simp [hname]) hgn
  · rename_i hany
    rcases List.mem_append.mp hf with hf1 | hf1
    · exfalso
      rw [List.any_eq_true] at hany
      push_neg at hany
      exact absurd (by simp [hname]) (hany f hf1)
    · rw [List.mem_singleton.mp hf1]

lemma writeFile_exists (dir : List CacheFile) (name : List Char) (c : FileContent) :
    ∃ f ∈ writeFile dir name c, f.name = name := by
  unfold writeFile
  split
  · rename_i hany
    obtain ⟨g, hg, hgn⟩ := List.any_eq_true.mp hany
    refine ⟨⟨name, c⟩, ?_, rfl⟩
    refine List.mem_map.mpr ⟨g, hg, ?_⟩
    rw [if_pos hgn]
  · exact ⟨⟨name, c⟩, List.mem_append.mpr (Or.inr (List.mem_singleton.mpr rfl)), rfl⟩

lemma read_after_update (fig : Fig) (name : List Char) (DoY : Nat) (dir : List CacheFile)
    (h : hasSub (tag DoY) name = true) :
    jsonLoadFile (_update_cache fig name DoY dir) name = .ok fig := by
  unfold _update_cache jsonLoadFile
  obtain ⟨f1, hf1mem, hf1name⟩ := writeFile_exists dir name (.good fig)
  have hf1filter : f1 ∈ (writeFile dir name (.good fig)).filter
      (fun f => hasSub (tag DoY) f.name) :=
    List.mem_filter.mpr ⟨hf1mem, by rw [hf1name]; exact h⟩
  cases hfind : ((writeFile dir name (.good fig)).filter
      (fun f => hasSub (tag DoY) f.name)).find? (fun f => f.name == name) with
  | none =>
    exfalso
    exact absurd (by simp [hf1name]) (List.find?_eq_none.mp hfind f1 hf1filter)
  | some f0 =>
    have hp := List.find?_some hfind
    have hmem0 : f0 ∈ (writeFile dir name (.good fig)).filter
        (fun f => hasSub (tag DoY) f.name) := List.mem_of_find?_eq_some hfind
    have hc : f0.content = .good fig :=
      writeFile_content f0 (List.mem_of_mem_filter hmem0) (by simpa using hp)
    simp [hc]

lemma jsonLoadFile_of_find_none {dir : List CacheFile} {name : List Char}
    (h : dir.find? (fun f => f.name == name) = none) :
    jsonLoadFile dir name = .error .fileNotFound := by
  unfold jsonLoadFile
  rw [h]

lemma jsonLoadFile_of_find_some {dir : List CacheFile} {name : List Char} {f0 : CacheFile}
    (h : dir.find? (fun f => f.name == name) = some f0) :
    jsonLoadFile dir name =
      match f0.content with
      | .good fig => .ok fig
      | .corrupt => .error .jsonDecodeError
      | .unreadable => .error .permissionError := by
  unfold jsonLoadFile
  rw [h]


lemma check_m_invalid {m : Int} (h90 : m ≠ 90) (h365 : m ≠ 365) :
    _check_m m = .error (.httpException 404 "Not found. Try m=90 or m=365") := by
  unfold _check_m
  rw [if_neg (fun h => h.elim (fun h1 => h90 h1) (fun h2 => h365 h2))]

lemma moving_avg_invalid {m : Int} (h90 : m ≠ 90) (h365 : m ≠ 365) (days_back : Int)
    (DoY : Nat) (today : Int) (db : List ExitRecord) (dir : List CacheFile) :
    moving_avg m days_back DoY today db dir
      = ⟨.error (.httpException 404 "Not found. Try m=90 or m=365"), dir, []⟩ := by
  unfold moving_avg
  rw [check_m_invalid h90 h365]

lemma exit_pie_invalid {m : Int} (h90 : m ≠ 90) (h365 : m ≠ 365)
    (DoY : Nat) (today : Int) (db : List ExitRecord) (dir : List CacheFile) :
    exit_pie m DoY today db dir
      = ⟨.error (.httpException 404 "Not found. Try m=90 or m=365"), dir, []⟩ := by
  unfold exit_pie
  rw [check_m_invalid h90 h365]

lemma moving_avg_ok_m {m : Int} (hm : _check_m m = .ok ()) (days_back : Int) (DoY : Nat)
    (today : Int) (db : List ExitRecord) (dir : List CacheFile) :
    moving_avg m days_back DoY today db dir =
      match jsonLoadFile dir (maName m days_back DoY) with
      | .ok fig => ⟨.ok fig, dir, [.cacheAccess]⟩
      | .error .fileNotFound =>
        match plot_moving_avg db m days_back today with
        | .ok fig => ⟨.ok fig, _update_cache fig (maName m days_back DoY) DoY dir,
            [.cacheAccess, .dbQuery]⟩
        | .error e => ⟨.error e, dir, [.cacheAccess, .dbQuery]⟩
      | .error e => ⟨.error e, dir, [.cacheAccess]⟩ := by
  unfold moving_avg
  rw [hm]

lemma exit_pie_ok_m {m : Int} (hm : _check_m m = .ok ()) (DoY : Nat)
    (today : Int) (db : List ExitRecord) (dir : List CacheFile) :
    exit_pie m DoY today db dir =
      match jsonLoadFile dir (pieName m DoY) with
      | .ok fig => ⟨.ok fig, dir, [.cacheAccess]⟩
      | .error .fileNotFound =>
        ⟨.ok (plot_exit_pie db m today),
          _update_cache (plot_exit_pie db m today) (pieName m DoY) DoY dir,
          [.cacheAccess, .dbQuery]⟩
      | .error e => ⟨.error e, dir, [.cacheAccess]⟩ := by
  unfold exit_pie
  rw [hm]

lemma buildRows_error_mem {α β : Type} (f : α → Except PyError β) :
    ∀ (l : List α) (e : PyError), buildRows f l = .error e → ∃ x ∈ l, f x = .error e := by
  intro l
  induction l with
  | nil =>
    intro e h
    simp only [buildRows] at h
    cases h
  | cons x xs ih =>
    intro e h
    simp only [buildRows] at h
    split at h
    · rename_i e1 he1
      cases h
      exact ⟨x, List.mem_cons_self x xs, he1⟩
    · rename_i y hy
      split at h
      · rename_i e2 he2
        cases h
        obtain ⟨x2, hx2, hfx2⟩ := ih e he2
        exact ⟨x2, List.mem_cons_of_mem x hx2, hfx2⟩
      · cases h

lemma exceptMap_error {β γ : Type} {f : β → γ} {x : Except PyError β} {e : PyError}
    (h : Except.map f x = .error e) : x = .error e := by
  cases x with
  | ok y => simp [Except.map] at h
  | error e2 =>
    simp only [Except.map] at h
    cases h
    rfl

lemma pyDiv_error {a n : Nat} {e : PyError} (h : pyDiv a n = .error e) : e = .zeroDivision := by
  unfold pyDiv at h
  split at h
  · cases h; rfl
  · cases h

lemma bucketBreakdown_error {df : List ExitRecord} {dests : List String} {start stop : Int}
    {e : PyError} (h : bucketBreakdown df dests start stop = .error e) : e = .zeroDivision := by
  simp only [bucketBreakdown] at h
  obtain ⟨dst, _, hdst⟩ := buildRows_error_mem _ dests e h
  exact pyDiv_error (exceptMap_error hdst)

lemma movingBuckets_error {db : List ExitRecord} {m days_back last_ : Int} {e : PyError}
    (h : movingBuckets db m days_back last_ = .error e) :
    e = .zeroDivision ∨ e = .keyError := by
  simp only [movingBuckets] at h
  split at h
  · cases h
    exact Or.inr rfl
  · obtain ⟨i, _, hi⟩ := buildRows_error_mem _ (movingOffsets days_back) e h
    exact Or.inl (bucketBreakdown_error (exceptMap_error hi))

lemma plot_moving_avg_error {db : List ExitRecord} {m days_back today : Int} {e : PyError}
    (h : plot_moving_avg db m days_back today = .error e) :
    e = .zeroDivision ∨ e = .keyError := by
  unfold plot_moving_avg at h
  exact movingBuckets_error (exceptMap_error h)

lemma jsonLoadFile_error_cases {dir : List CacheFile} {name : List Char} {e : PyError}
    (h : jsonLoadFile dir name = .error e) :
    e = .fileNotFound ∨ e = .jsonDecodeError ∨ e = .permissionError := by
  unfold jsonLoadFile at h
  split at h
  · cases h
    exact Or.inl rfl
  · split at h
    · cases h
    · cases h
      exact Or.inr (Or.inl rfl)
    · cases h
      exact Or.inr (Or.inr rfl)


/-! ### Claim theorems -/

/-- C1: refuted on the code — the code raises `ZeroDivisionError` for a
bucket whose window contains no records while the overall fetched set is
non-empty.  One record dated `last`, with `m = 90` and `days_back = 4`,
makes `dests` non-empty while the bucket at offset 1 is empty, so the
aggregation (and hence `plot_moving_avg`, at `today = 180`, so that
`last = 0`) aborts with `ZeroDivisionError` instead of reporting a
breakdown of 0 for each category. -/
theorem c1_empty_bucket_raises_zero_division :
    movingBuckets [⟨0, "Permanent Exit"⟩] 90 4 0 = .error .zeroDivision
    ∧ plot_moving_avg [⟨0, "Permanent Exit"⟩] 90 4 180 = .error .zeroDivision :=
  ⟨rfl, rfl⟩

/-- C2 counterexample: with one fetched record of destination
"Permanent Exit" (`m = 90`, `days_back = 1`, `last = 0`), the single
computed bucket's breakdown has exactly the key "Permanent Exit";
"Temporary Exit" — a member of the fixed five-element category set — is
absent, refuting ``categories are never absent''. -/
theorem c2_fixed_categories_absent_counterexample :
    Except.map (fun bs => bs.map (fun p => p.2.map Prod.fst))
      (movingBuckets [⟨0, "Permanent Exit"⟩] 90 1 0) = .ok [["Permanent Exit"]]
    ∧ "Temporary Exit" ∈ CATEGORIES
    ∧ "Temporary Exit" ∉ ["Permanent Exit"] :=
  ⟨rfl, by decide, by decide⟩

/-- C2 amended: in every bucket produced by a successful
`movingBuckets` run, the breakdown has exactly one entry per distinct
destination occurring in the fetched record set (`df['dest'].unique()`),
not per fixed-set category; a destination occurring in the fetched data
but not in the bucket's window has value 0, and a category absent from
the fetched data is absent from every bucket. -/
theorem c2_breakdown_keys_are_fetched_dests (db : List ExitRecord) (m days_back last_ : Int)
    (bs : List (Int × List (String × Rat)))
    (hok : movingBuckets db m days_back last_ = .ok bs) :
    ∀ p ∈ bs,
      p.2.map Prod.fst = uniqueDests (_exit_df db (last_ - (m + days_back)) last_)
      ∧ (∀ c : String, c ∈ p.2.map Prod.fst ↔
          c ∈ (_exit_df db (last_ - (m + days_back)) last_).map (fun r => r.dest))
      ∧ ∀ q ∈ p.2,
          ((dateFilter (_exit_df db (last_ - (m + days_back)) last_) (p.1 - m) p.1).filter
            (fun r => r.dest == q.1)).length = 0 → q.2 = 0 := by
  intro p hp
  obtain ⟨i, hi, hp1, hbk⟩ := movingBuckets_mem hok p hp
  obtain ⟨hkeys, hvals⟩ := bucketBreakdown_ok hbk
  refine ⟨hkeys, ?_, hvals⟩
  intro c
  rw [hkeys]
  exact mem_uniqueDests c _

/-- C2 witness: the amended theorem applied to the run on a store holding
one "Permanent Exit" record dated `last = 0`, with `m = 90`,
`days_back = 1`; the single bucket is `(0, {"Permanent Exit": 1/1})`. -/
theorem c2_breakdown_keys_witness :
    ([("Permanent Exit", ((1 : Nat) : Rat) / ((1 : Nat) : Rat))] :
        List (String × Rat)).map Prod.fst
      = uniqueDests (_exit_df [⟨0, "Permanent Exit"⟩] (0 - (90 + 1)) 0)
    ∧ (∀ c : String,
        c ∈ ([("Permanent Exit", ((1 : Nat) : Rat) / ((1 : Nat) : Rat))] :
            List (String × Rat)).map Prod.fst ↔
          c ∈ (_exit_df [⟨0, "Permanent Exit"⟩] (0 - (90 + 1)) 0).map (fun r => r.dest))
    ∧ ∀ q ∈ ([("Permanent Exit", ((1 : Nat) : Rat) / ((1 : Nat) : Rat))] :
          List (String × Rat)),
        ((dateFilter (_exit_df [⟨0, "Permanent Exit"⟩] (0 - (90 + 1)) 0)
            ((0 : Int) - 90) 0).filter (fun r => r.dest == q.1)).length = 0 → q.2 = 0 :=
  c2_breakdown_keys_are_fetched_dests [⟨0, "Permanent Exit"⟩] 90 1 0
    [((0 : Int), [("Permanent Exit", ((1 : Nat) : Rat) / ((1 : Nat) : Rat))])] rfl
    ((0 : Int), [("Permanent Exit", ((1 : Nat) : Rat) / ((1 : Nat) : Rat))]) (by simp)

/-- C3: refuted on the code — the sweep tests Python substring containment
`f'd{DoY}' not in file.name`, so a write with day tag `d4` keeps the stale
file `MA90-30-d45.json` of day 45, because "d4" occurs inside "d45".
After `_update_cache` for day-of-year 4, the file whose name references
day 45 is still in the directory, contradicting the code's own comment
"Delete any files created on a day besides today". -/
theorem c3_substring_sweep_keeps_stale_file :
    _update_cache (Fig.pie []) (pieName 365 4) 4 [⟨maName 90 30 45, .good (Fig.line [])⟩]
      = [⟨maName 90 30 45, .good (Fig.line [])⟩, ⟨pieName 365 4, .good (Fig.pie [])⟩]
    ∧ hasSub (tag 45) (maName 90 30 45) = true
    ∧ (45 : Nat) ≠ 4 :=
  ⟨rfl, rfl, by decide⟩

/-- C4 counterexample: a cache file present at the moving-average key but
holding unparseable content makes the route raise `json.JSONDecodeError`
to the caller instead of treating the failure as a miss. -/
theorem c4_corrupt_cache_read_surfaces :
    (moving_avg 90 5 10 0 [] [⟨maName 90 5 10, .corrupt⟩]).response
      = .error .jsonDecodeError :=
  rfl

/-- C4 amended: only a missing cache file (`FileNotFoundError`) is treated
as a miss and falls through to recomputation; a present-but-corrupt file
raises `json.JSONDecodeError` and an unreadable file raises
`PermissionError`, both surfaced to the caller, on both routes. -/
theorem c4_missing_is_miss_others_surface (m days_back : Int) (DoY : Nat) (today : Int)
    (db : List ExitRecord) (dir : List CacheFile) (hm : m = 90 ∨ m = 365) :
    (List.find? (fun f => f.name == maName m days_back DoY) dir = none →
      (moving_avg m days_back DoY today db dir).response = plot_moving_avg db m days_back today
      ∧ (moving_avg m days_back DoY today db dir).events = [Ev.cacheAccess, Ev.dbQuery])
    ∧ (∀ f0, List.find? (fun f => f.name == maName m days_back DoY) dir = some f0 →
        (f0.content = .corrupt →
          (moving_avg m days_back DoY today db dir).response = .error .jsonDecodeError)
        ∧ (f0.content = .unreadable →
          (moving_avg m days_back DoY today db dir).response = .error .permissionError))
    ∧ (List.find? (fun f => f.name == pieName m DoY) dir = none →
      (exit_pie m DoY today db dir).response = .ok (plot_exit_pie db m today)
      ∧ (exit_pie m DoY today db dir).events = [Ev.cacheAccess, Ev.dbQuery])
    ∧ (∀ f0, List.find? (fun f => f.name == pieName m DoY) dir = some f0 →
        (f0.content = .corrupt →
          (exit_pie m DoY today db dir).response = .error .jsonDecodeError)
        ∧ (f0.content = .unreadable →
          (exit_pie m DoY today db dir).response = .error .permissionError)) := by
  have hcm : _check_m m = .ok () := by rcases hm with rfl | rfl <;> rfl
  have hrma := moving_avg_ok_m hcm days_back DoY today db dir
  have hrpie := exit_pie_ok_m hcm DoY today db dir
  refine ⟨?_, ?_, ?_, ?_⟩
  · intro hnone
    have hload := jsonLoadFile_of_find_none hnone
    simp only [hload] at hrma
    cases hplot : plot_moving_avg db m days_back today with
    | ok fig =>
      simp only [hplot] at hrma
      rw [hrma]
      exact ⟨rfl, rfl⟩
    | error e =>
      simp only [hplot] at hrma
      rw [hrma]
      exact ⟨rfl, rfl⟩
  · intro f0 hsome
    have hload := jsonLoadFile_of_find_some hsome
    constructor
    · intro hcor
      simp only [hcor] at hload
      simp only [hload] at hrma
      rw [hrma]
    · intro hunr
      simp only [hunr] at hload
      simp only [hload] at hrma
      rw [hrma]
  · intro hnone
    have hload := jsonLoadFile_of_find_none hnone
    simp only [hload] at hrpie
    rw [hrpie]
    exact ⟨rfl, rfl⟩
  · intro f0 hsome
    have hload := jsonLoadFile_of_find_some hsome
    constructor
    · intro hcor
      simp only [hcor] at hload
      simp only [hload] at hrpie
      rw [hrpie]
    · intro hunr
      simp only [hunr] at hload
      simp only [hload] at hrpie
      rw [hrpie]

/-- C4 amended witness: the amended theorem at `m = 90`, `days_back = 5`,
`DoY = 10`, `today = 0`, empty record store and empty cache directory. -/
theorem c4_missing_is_miss_witness :
    (List.find? (fun f => f.name == maName 90 5 10) ([] : List CacheFile) = none →
      (moving_avg 90 5 10 0 [] []).response = plot_moving_avg [] 90 5 0
      ∧ (moving_avg 90 5 10 0 [] []).events = [Ev.cacheAccess, Ev.dbQuery])
    ∧ (∀ f0 : CacheFile, List.find? (fun f => f.name == maName 90 5 10) ([] : List CacheFile) = some f0 →
        (f0.content = .corrupt →
          (moving_avg 90 5 10 0 [] []).response = .error .jsonDecodeError)
        ∧ (f0.content = .unreadable →
          (moving_avg 90 5 10 0 [] []).response = .error .permissionError))
    ∧ (List.find? (fun f => f.name == pieName 90 10) ([] : List CacheFile) = none →
      (exit_pie 90 10 0 [] []).response = .ok (plot_exit_pie [] 90 0)
      ∧ (exit_pie 90 10 0 [] []).events = [Ev.cacheAccess, Ev.dbQuery])
    ∧ (∀ f0 : CacheFile, List.find? (fun f => f.name == pieName 90 10) ([] : List CacheFile) = some f0 →
        (f0.content = .corrupt →
          (exit_pie 90 10 0 [] []).response = .error .jsonDecodeError)
        ∧ (f0.content = .unreadable →
          (exit_pie 90 10 0 [] []).response = .error .permissionError)) :=
  c4_missing_is_miss_others_surface 90 5 10 0 [] [] (Or.inl rfl)

/-- C5: for `m` outside {90, 365} both routes return the 404 error with
detail "Not found. Try m=90 or m=365" while performing no cache access,
no database query, and no cache mutation (empty event trace, directory
unchanged). -/
theorem c5_invalid_m_rejected_before_effects (m days_back : Int) (DoY : Nat) (today : Int)
    (db : List ExitRecord) (dir : List CacheFile) (h90 : m ≠ 90) (h365 : m ≠ 365) :
    moving_avg m days_back DoY today db dir
      = ⟨.error (.httpException 404 "Not found. Try m=90 or m=365"), dir, []⟩
    ∧ exit_pie m DoY today db dir
      = ⟨.error (.httpException 404 "Not found. Try m=90 or m=365"), dir, []⟩ :=
  ⟨moving_avg_invalid h90 h365 days_back DoY today db dir,
   exit_pie_invalid h90 h365 DoY today db dir⟩

/-- C5 witness: the theorem at `m = 100`. -/
theorem c5_invalid_m_witness :
    moving_avg 100 30 7 0 [] []
      = ⟨.error (.httpException 404 "Not found. Try m=90 or m=365"), [], []⟩
    ∧ exit_pie 100 7 0 [] []
      = ⟨.error (.httpException 404 "Not found. Try m=90 or m=365"), [], []⟩ :=
  c5_invalid_m_rejected_before_effects 100 30 7 0 [] [] (by decide) (by decide)

/-- C6 counterexample: with `days_back = 0` and an empty record store
(`m = 90`, `last = 0`), the program does not return an empty sequence:
`_exit_df` yields the bare column-less `pd.DataFrame()` and `df['dest']`
raises `KeyError` before the (empty) loop, so the aggregation — and
`plot_moving_avg` at `today = 180` — errors out, refuting ``empty
sequence, not an error''. -/
theorem c6_zero_iterations_error_counterexample :
    movingBuckets [] 90 0 0 = .error .keyError
    ∧ movingBuckets [] 90 0 0 ≠ .ok []
    ∧ plot_moving_avg [] 90 0 180 = .error .keyError :=
  ⟨rfl, by decide, rfl⟩

/-- C6 amended: for `days_back ≥ 0` the stride is
`max(1, days_back // 90)` and the iterated offsets are exactly the
multiples of the stride below `days_back`; concretely `days_back = 180`
yields the 90 offsets 0,2,...,178.  When the iteration is empty
(`days_back = 0`) the result is an empty bucket sequence — not an error —
provided the fetched record set is non-empty; when the fetch is empty the
operation raises `KeyError` at the `df['dest']` access before the loop,
for every `days_back`. -/
theorem c6_step_density_and_iteration (d : Int) (hd : 0 ≤ d) :
    STEP d = max 1 (d / 90)
    ∧ (∀ i : Int, i ∈ movingOffsets d ↔ ∃ k : Nat, i = STEP d * k ∧ i < d)
    ∧ movingOffsets 180 = (List.range 90).map (fun (k : Nat) => 2 * (k : Int))
    ∧ (∀ (db : List ExitRecord) (last_ : Int),
        _exit_df db (last_ - (90 + 0)) last_ ≠ [] → movingBuckets db 90 0 last_ = .ok [])
    ∧ (∀ (db : List ExitRecord) (m2 d2 l2 : Int),
        _exit_df db (l2 - (m2 + d2)) l2 = [] →
          movingBuckets db m2 d2 l2 = .error .keyError) := by
  refine ⟨?_, mem_movingOffsets_nonneg hd, by decide, ?_, ?_⟩
  · simp only [STEP]
    split <;> omega
  · intro db last_ hne
    cases hdf : _exit_df db (last_ - (90 + 0)) last_ with
    | nil => exact absurd hdf hne
    | cons r rs =>
      simp only [movingBuckets, hdf]
      rfl
  · intro db m2 d2 l2 hdf
    simp only [movingBuckets, hdf]

/-- C6 witness: the amended theorem at `days_back = 180`. -/
theorem c6_step_witness :
    STEP 180 = max 1 (180 / 90)
    ∧ (∀ i : Int, i ∈ movingOffsets 180 ↔ ∃ k : Nat, i = STEP 180 * k ∧ i < 180)
    ∧ movingOffsets 180 = (List.range 90).map (fun (k : Nat) => 2 * (k : Int))
    ∧ (∀ (db : List ExitRecord) (last_ : Int),
        _exit_df db (last_ - (90 + 0)) last_ ≠ [] → movingBuckets db 90 0 last_ = .ok [])
    ∧ (∀ (db : List ExitRecord) (m2 d2 l2 : Int),
        _exit_df db (l2 - (m2 + d2)) l2 = [] →
          movingBuckets db m2 d2 l2 = .error .keyError) :=
  c6_step_density_and_iteration 180 (by decide)

/-- C7: the record fetch `_exit_df` returns exactly the stored records
with `first < exit_date <= last` — every returned record satisfies the
bound and every stored record satisfying the bound is returned. -/
theorem c7_fetch_exactly_range (db : List ExitRecord) (first last_ : Int) (r : ExitRecord) :
    r ∈ _exit_df db first last_ ↔ r ∈ db ∧ first < r.date ∧ r.date ≤ last_ := by
  simp [_exit_df, dateFilter, List.mem_filter, and_assoc]

/-- C8: if a call to the moving-average route returns payload `fig`, then,
with the record store unchanged and the first call's background cache
write completed, a second call in the same day-of-year returns the same
payload, performs only the cache access (no database query), leaves the
directory unchanged, and the cache file at the key holds exactly that
payload. -/
theorem c8_same_day_second_call_cached (m days_back : Int) (DoY : Nat) (today : Int)
    (db : List ExitRecord) (dir : List CacheFile) (fig : Fig)
    (h1 : (moving_avg m days_back DoY today db dir).response = .ok fig) :
    moving_avg m days_back DoY today db (moving_avg m days_back DoY today db dir).dirAfter
      = ⟨.ok fig, (moving_avg m days_back DoY today db dir).dirAfter, [Ev.cacheAccess]⟩
    ∧ jsonLoadFile (moving_avg m days_back DoY today db dir).dirAfter (maName m days_back DoY)
      = .ok fig := by
  cases hcm : _check_m m with
  | error e =>
    have hbad : moving_avg m days_back DoY today db dir = ⟨.error e, dir, []⟩ := by
      unfold moving_avg
      rw [hcm]
    rw [hbad] at h1
    simp at h1
  | ok u =>
    cases u
    have hr := moving_avg_ok_m hcm days_back DoY today db dir
    cases hload : jsonLoadFile dir (maName m days_back DoY) with
    | ok fig0 =>
      simp only [hload] at hr
      rw [hr] at h1
      simp only [Except.ok.injEq] at h1
      subst h1
      rw [hr]
      have hr2 := moving_avg_ok_m hcm days_back DoY today db dir
      simp only [hload] at hr2
      constructor
      · rw [hr2]
      · exact hload
    | error e =>
      rcases jsonLoadFile_error_cases hload with rfl | rfl | rfl
      · cases hplot : plot_moving_avg db m days_back today with
        | ok fig1 =>
          simp only [hload, hplot] at hr
          rw [hr] at h1
          simp only [Except.ok.injEq] at h1
          subst h1
          have hread := read_after_update fig1 (maName m days_back DoY) DoY dir
            (hasSub_maName m days_back DoY)
          have hr2 := moving_avg_ok_m hcm days_back DoY today db
            (_update_cache fig1 (maName m days_back DoY) DoY dir)
          simp only [hread] at hr2
          rw [hr]
          exact ⟨hr2, hread⟩
        | error e2 =>
          simp only [hload, hplot] at hr
          rw [hr] at h1
          simp at h1
      · simp only [hload] at hr
        rw [hr] at h1
        simp at h1
      · simp only [hload] at hr
        rw [hr] at h1
        simp at h1

/-- C8 witness: the theorem at `m = 90`, `days_back = 1`, `DoY = 7`,
`today = 0`, a store holding one "Permanent Exit" record dated `-180`
(that is, `today - 180`), and an empty cache directory; the first call
computes the one-bucket line payload for the window ending at `-180`. -/
theorem c8_same_day_witness :
    moving_avg 90 1 7 0 [⟨-180, "Permanent Exit"⟩]
        (moving_avg 90 1 7 0 [⟨-180, "Permanent Exit"⟩] []).dirAfter
      = ⟨.ok (Fig.line [((-180 : Int),
            [("Permanent Exit", ((1 : Nat) : Rat) / ((1 : Nat) : Rat))])]),
          (moving_avg 90 1 7 0 [⟨-180, "Permanent Exit"⟩] []).dirAfter, [Ev.cacheAccess]⟩
    ∧ jsonLoadFile (moving_avg 90 1 7 0 [⟨-180, "Permanent Exit"⟩] []).dirAfter
        (maName 90 1 7)
      = .ok (Fig.line [((-180 : Int),
          [("Permanent Exit", ((1 : Nat) : Rat) / ((1 : Nat) : Rat))])]) :=
  c8_same_day_second_call_cached 90 1 7 0 [⟨-180, "Permanent Exit"⟩] []
    (Fig.line [((-180 : Int), [("Permanent Exit", ((1 : Nat) : Rat) / ((1 : Nat) : Rat))])])
    rfl

/-- C9: `_update_cache` never deletes the entry it has just written: after
the write-plus-sweep the file at the cache key still exists with the
written payload, because both key shapes contain the day tag `d{DoY}` by
construction. -/
theorem c9_sweep_preserves_written_entry (fig : Fig) (m days_back : Int) (DoY : Nat)
    (dir : List CacheFile) :
    jsonLoadFile (_update_cache fig (maName m days_back DoY) DoY dir)
      (maName m days_back DoY) = .ok fig
    ∧ jsonLoadFile (_update_cache fig (pieName m DoY) DoY dir) (pieName m DoY) = .ok fig :=
  ⟨read_after_update fig _ DoY dir (hasSub_maName m days_back DoY),
   read_after_update fig _ DoY dir (hasSub_pieName m DoY)⟩

/-- C10: `days_back` is never validated: with valid `m = 90` and any
`days_back` (negative included), `_check_m` passes, the handler reaches
the cache access first, and never returns an `HTTPException`; for
`days_back ≤ -90` the computed stride is negative and the iteration
contains a negative offset, whose bucket end `last - i` lies after the
anchor `last`. -/
theorem c10_days_back_unvalidated (days_back : Int) (DoY : Nat) (today : Int)
    (db : List ExitRecord) (dir : List CacheFile) :
    _check_m 90 = .ok ()
    ∧ (moving_avg 90 days_back DoY today db dir).events.head? = some Ev.cacheAccess
    ∧ (∀ s : Nat, ∀ t : String,
        (moving_avg 90 days_back DoY today db dir).response ≠ .error (.httpException s t))
    ∧ (days_back ≤ -90 →
        STEP days_back < 0 ∧ ∃ i ∈ movingOffsets days_back, i < 0) := by
  have hcm : _check_m 90 = .ok () := rfl
  have hr := moving_avg_ok_m hcm days_back DoY today db dir
  refine ⟨hcm, ?_, ?_, ?_⟩
  · rw [hr]
    cases hload : jsonLoadFile dir (maName 90 days_back DoY) with
    | ok fig => rfl
    | error e =>
      rcases jsonLoadFile_error_cases hload with rfl | rfl | rfl
      · cases plot_moving_avg db 90 days_back today <;> rfl
      · rfl
      · rfl
  · intro s t
    rw [hr]
    cases hload : jsonLoadFile dir (maName 90 days_back DoY) with
    | ok fig => simp
    | error e =>
      rcases jsonLoadFile_error_cases hload with rfl | rfl | rfl
      · cases hplot : plot_moving_avg db 90 days_back today with
        | ok fig => simp
        | error e2 =>
          rcases plot_moving_avg_error hplot with rfl | rfl <;> simp
      · simp
      · simp
  · intro hdb
    obtain ⟨hneg, hmem⟩ := neg_step_offset_mem hdb
    exact ⟨hneg, STEP days_back, hmem, hneg⟩

/-- C10 witness: at `days_back = -90` the negative-stride conjunct of the
theorem, with its hypothesis discharged. -/
theorem c10_days_back_witness :
    STEP (-90) < 0 ∧ ∃ i ∈ movingOffsets (-90), i < 0 :=
  (c10_days_back_unvalidated (-90) 1 0 [] []).2.2.2 (by decide)

end Visualize
